import Mathlib

/-!
Verification of the TCP bridge core of the ROS-TCP-Endpoint repository.

The embedding models the two source files:
 - ros_tcp_endpoint/client.py   (ClientThread: framing readers and the
   per-connection receive loop run)
 - ros_tcp_endpoint/subscriber.py (RosSubscriber: the outbound channel)

Byte strings are modelled as lists of natural numbers (one entry per byte).
Python str values that travel through the framing layer are represented by
their UTF-8 byte sequences; the str.encode and bytes.decode calls of the
source are the identity on that representation.

A TCP connection delivering data is modelled as a list of chunks: each
socket.recv call returns a prefix of the first pending chunk (at most the
requested count), mirroring how recv returns at most one buffered segment.
An exhausted chunk list models end of stream, where recv returns zero bytes.
-/

namespace RosTcpEndpoint

abbrev Bytes := List Nat

/-- Flattened byte content of a chunked stream. -/
def flat (s : List Bytes) : Bytes := s.flatten

/-- ClientThread._Preamble, client.py line 26: the four magic bytes. -/
def preamble : Bytes := [0xfe, 0xed, 0xf0, 0x0d]

/-- Model of socket.recv applied to a chunked stream: returns at most n
bytes taken from the first pending chunk, together with the rest of the
stream. An empty stream yields zero bytes (end of stream). -/
def recv : List Bytes → Nat → Bytes × List Bytes
  | [], _ => ([], [])
  | c :: cs, n =>
    if c.drop n = [] then (c.take n, cs) else (c.take n, c.drop n :: cs)

/-- The accumulation loop of ClientThread.validate_preamble, client.py
lines 54-61: keep calling recv until the requested count is gathered;
a zero-byte read raises, modelled as the none result. Recursion is driven
by a fuel argument; the caller passes enough fuel for the byte count. -/
def recvExact (s : List Bytes) (remaining : Nat) (acc : Bytes) : Nat → Option Bytes × List Bytes
  | 0 => (none, s)
  | fuel + 1 =>
    if remaining = 0 then (some acc, s)
    else
      let p := recv s remaining
      if p.1 = [] then (none, p.2)
      else recvExact p.2 (remaining - p.1.length) (acc ++ p.1) fuel

/-- ClientThread.validate_preamble, client.py lines 52-70: accumulate four
bytes and compare with the preamble; any failure yields false. -/
def validate_preamble (s : List Bytes) : Bool × List Bytes :=
  match recvExact s preamble.length [] (preamble.length + 1) with
  | (none, s1) => (false, s1)
  | (some data, s1) => (decide (data = preamble), s1)

/-- struct.pack of an unsigned 32-bit little-endian integer, as used in
ClientThread.serialize_message (client.py lines 124 and 136). Defined for
values below 2 to the 32; larger values make the source raise. -/
def pack_le_uint32 (n : Nat) : Bytes :=
  [n % 256, n / 256 % 256, n / 65536 % 256, n / 16777216 % 256]

/-- struct.unpack of an unsigned 32-bit little-endian integer (client.py
line 81); it requires exactly four bytes, anything else raises, modelled
as none. -/
def unpack_le_uint32 : Bytes → Option Nat
  | [b0, b1, b2, b3] => some (b0 + 256 * b1 + 65536 * b2 + 16777216 * b3)
  | _ => none

/-- ClientThread.read_int32, client.py lines 72-86: a SINGLE recv of four
bytes followed by unpack; no accumulation loop, so a short read yields
none (the swallowed struct.error). -/
def read_int32 (s : List Bytes) : Option Nat × List Bytes :=
  let p := recv s 4
  (unpack_le_uint32 p.1, p.2)

/-- ClientThread.read_string, client.py lines 88-108: read a length prefix
with read_int32, then a SINGLE recv of that many bytes. The recv may
return fewer bytes than requested; the source then decodes whatever
arrived. A failed length read propagates as none. -/
def read_string (s : List Bytes) : Option Bytes × List Bytes :=
  match read_int32 s with
  | (none, s1) => (none, s1)
  | (some n, s1) =>
    let p := recv s1 n
    (some p.1, p.2)

/-- ClientThread.serialize_message, client.py lines 110-139: outbound wire
format, destination length prefix, destination bytes, payload length
prefix, payload bytes; no preamble. -/
def serialize_message (destination message : Bytes) : Bytes :=
  pack_le_uint32 destination.length ++ destination ++
    pack_le_uint32 message.length ++ message

/-- The payload accumulation loop of ClientThread.run, client.py lines
169-178: grab chunks of at most 1024 bytes until the declared size is
reached; a zero-byte read breaks out silently, leaving the data gathered
so far. Fuel drives the recursion; the caller passes size plus one. -/
def readPayload (s : List Bytes) (size : Nat) (data : Bytes) : Nat → Bytes × List Bytes
  | 0 => (data, s)
  | fuel + 1 =>
    if data.length < size then
      let grab := if 1024 < size - data.length then 1024 else size - data.length
      let p := recv s grab
      if p.1 = [] then (data, p.2)
      else readPayload p.2 size (data ++ p.1) fuel
    else (data, s)

/-- A full inbound frame as the remote peer sends it: preamble followed by
the outbound layout (client.py lines 151-156 describe the expectation). -/
def inboundFrame (d p : Bytes) : Bytes := preamble ++ serialize_message d p

/-- Result of running the four inbound field readers in the order used by
ClientThread.run: preamble, destination, payload size, payload bytes. -/
structure DecodeOut where
  preambleOk : Bool
  destination : Option Bytes
  size : Option Nat
  payload : Bytes
deriving DecidableEq, Repr

/-- The decode pipeline of ClientThread.run, client.py lines 161-178:
validate_preamble, read_string, read_int32, then the payload loop. -/
def decodeFrame (s : List Bytes) : DecodeOut :=
  match validate_preamble s with
  | (false, _) => ⟨false, none, none, []⟩
  | (true, s1) =>
    match read_string s1 with
    | (destination, s2) =>
      match read_int32 s2 with
      | (none, _) => ⟨true, destination, none, []⟩
      | (some size, s3) =>
        ⟨true, destination, some size, (readPayload s3 size [] (size + 1)).1⟩

/-- The same pipeline without the preamble stage, the composition the
round-trip property of the spec speaks about. -/
def decodeOutbound (s : List Bytes) : Option Bytes × Option Nat × Bytes :=
  match read_string s with
  | (destination, s1) =>
    match read_int32 s1 with
    | (none, _) => (destination, none, [])
    | (some size, s2) => (destination, some size, (readPayload s2 size [] (size + 1)).1)

/-- Delivery of a byte string one byte per read. -/
def split1 (b : Bytes) : List Bytes := b.map (fun x => [x])

/-- UTF-8 bytes of an ASCII string literal, used for the reserved
destination names and the diagnostic text of client.py. -/
def asciiOf (s : String) : Bytes := s.data.map Char.toNat

/-- The reserved syscommand destination, client.py line 185. -/
def sysName : Bytes := asciiOf ("__syscommand")

/-- The reserved handshake destination, client.py line 189. -/
def hsName : Bytes := asciiOf ("__handshake")

/-- Outcome of one call to a registered endpoint
(ros_communicator.send at client.py line 205): a normal return carrying
an optional response message, or a raised exception. -/
inductive EpResult
  | ok (response : Option Bytes)
  | err

/-- Observable actions of one iteration of ClientThread.run. -/
inductive Ev
  | close
  | epSend (dest payload : Bytes)
  | handshakeCall (payload : Bytes)
  | syscommandCall (payload : Bytes)
  | write (data : Bytes)
  | unityError (msg : Bytes)
deriving DecidableEq, Repr

/-- Python exceptions that can escape or be produced by the loop body. -/
inductive PyErr
  | typeError
  | socketError
  | topicDoesNotExist
deriving DecidableEq, Repr

/-- How one iteration of the run loop ends: a plain return, an exception
propagating out of run, or falling through to the next iteration. -/
inductive Status
  | ret
  | raised (e : PyErr)
  | next
deriving DecidableEq, Repr

structure StepOut where
  events : List Ev
  status : Status
  stream : List Bytes
deriving DecidableEq, Repr

/-- External collaborators of ClientThread.run: the destination registry
(tcp_server.source_destination_dict), the handshake collaborator
(unity_tcp_sender.handshake, modelled by the serialized bytes of its
response message), and whether a given conn.send call succeeds. -/
structure Env where
  registry : List (Bytes × (Bytes → EpResult))
  handshake : Bytes → Bytes
  connSendOk : Bytes → Bool

/-- Keys of the destination registry, in registration order. -/
def keys (reg : List (Bytes × (Bytes → EpResult))) : List Bytes :=
  reg.map Prod.fst

/-- Dictionary lookup in the destination registry. -/
def lookup (reg : List (Bytes × (Bytes → EpResult))) (d : Bytes) :
    Option (Bytes → EpResult) :=
  match reg with
  | [] => none
  | (k, v) :: rest => if k = d then some v else lookup rest d

/-- An ASCII single-quoted rendering of a byte string, as Python str
formatting produces for the destination name inside the diagnostic. -/
def quoted (b : Bytes) : Bytes := [39] ++ b ++ [39]

/-- Comma-space separated concatenation, as inside the repr of
dict_keys. -/
def joinComma : List Bytes → Bytes
  | [] => []
  | [b] => b
  | b :: rest => b ++ [44, 32] ++ joinComma rest

/-- The repr of dict.keys() interpolated by client.py line 197. -/
def keysRepr (ks : List Bytes) : Bytes :=
  asciiOf ("dict_keys([") ++ joinComma (ks.map quoted) ++ asciiOf ("])")

/-- Rendering of the destination slot of the diagnostic: the decoded
destination bytes, or the text None when read_string failed. -/
def destRepr : Option Bytes → Bytes
  | some d => d
  | none => asciiOf ("None")

/-- The formatted error text built at client.py lines 196-197. -/
def unknownDestMsg (dst : Option Bytes) (ks : List Bytes) : Bytes :=
  asciiOf ("Topic/service destination ") ++ quoted (destRepr dst) ++
    asciiOf (" is not defined! Known topics are: ") ++ keysRepr ks ++ [32]

/-- One iteration of the while loop of ClientThread.run, client.py lines
158-214, faithful to the branch order of the source: preamble check,
read_string, read_int32, payload loop, the empty-data bailout, the two
reserved destinations, registry lookup, dispatch and optional reply. -/
def runStep (env : Env) (s : List Bytes) : StepOut :=
  match validate_preamble s with
  | (false, s1) => ⟨[Ev.close], Status.ret, s1⟩
  | (true, s1) =>
    match read_string s1 with
    | (destination, s2) =>
      match read_int32 s2 with
      | (none, s3) => ⟨[], Status.raised PyErr.typeError, s3⟩
      | (some size, s3) =>
        match readPayload s3 size [] (size + 1) with
        | (data, s4) =>
          if data = [] then ⟨[Ev.close], Status.ret, s4⟩
          else if destination = some sysName then
            ⟨[Ev.syscommandCall data, Ev.close], Status.ret, s4⟩
          else if destination = some hsName then
            if env.connSendOk (serialize_message hsName (env.handshake data)) then
              ⟨[Ev.handshakeCall data,
                 Ev.write (serialize_message hsName (env.handshake data)), Ev.close],
               Status.ret, s4⟩
            else ⟨[Ev.handshakeCall data], Status.raised PyErr.socketError, s4⟩
          else
            match destination with
            | none =>
              ⟨[Ev.close, Ev.unityError (unknownDestMsg none (keys env.registry))],
               Status.raised PyErr.topicDoesNotExist, s4⟩
            | some d =>
              match lookup env.registry d with
              | none =>
                ⟨[Ev.close, Ev.unityError (unknownDestMsg (some d) (keys env.registry))],
                 Status.raised PyErr.topicDoesNotExist, s4⟩
              | some ep =>
                match ep data with
                | EpResult.err => ⟨[Ev.epSend d data, Ev.close], Status.ret, s4⟩
                | EpResult.ok none => ⟨[Ev.epSend d data], Status.next, s4⟩
                | EpResult.ok (some r) =>
                  if env.connSendOk (serialize_message d r) then
                    ⟨[Ev.epSend d data, Ev.write (serialize_message d r)], Status.next, s4⟩
                  else ⟨[Ev.epSend d data, Ev.close], Status.ret, s4⟩

/-- The full while loop of ClientThread.run: iterate runStep while it
falls through; collect all events and the exception, if one escapes. -/
def runClient (env : Env) : Nat → List Bytes → List Ev × Option PyErr
  | 0, _ => ([], none)
  | fuel + 1, s =>
    let o := runStep env s
    match o.status with
    | Status.next =>
      let rest := runClient env fuel o.stream
      (o.events ++ rest.1, rest.2)
    | Status.ret => (o.events, none)
    | Status.raised e => (o.events, some e)

/-- A byte string occurring contiguously inside another, the containment
the unknown-destination diagnostic is required to satisfy. -/
def occursIn (x l : Bytes) : Prop := ∃ u v, l = u ++ x ++ v

/- ===== ClientThread.shutdown_client, client.py lines 46-50 ===== -/

/-- State relevant to shutdown_client: the client_running flag and how
many times conn.close has been invoked. -/
structure ClientState where
  client_running : Bool
  closeCount : Nat
deriving DecidableEq, Repr

/-- ClientThread.shutdown_client: return immediately when not running,
otherwise clear the flag and close the connection once. -/
def shutdown_client (st : ClientState) : ClientState :=
  if st.client_running then ⟨false, st.closeCount + 1⟩ else st

/- ===== RosSubscriber, subscriber.py ===== -/

/-- External conditions of one RosSubscriber.send call: whether rospy is
shut down, whether the unity IP is still unset (empty string), whether
socket.connect and socket.send succeed, and the text of the exceptions
they raise on failure. -/
structure SubEnv where
  rospyShutdown : Bool
  unityIpEmpty : Bool
  connectOk : Bool
  sendOk : Bool
  connectErr : Bytes
  sendErr : Bytes

/-- Mutable state of a RosSubscriber (subscriber.py lines 35-43) together
with the unity_ip_error_message_printed flag of its sender. socketIsSome
records whether self.socket holds a socket object. -/
structure SubState where
  topic : Bytes
  msg : Nat
  connected : Bool
  socketIsSome : Bool
  mostRecentExc : Bytes
  ipErrPrinted : Bool
deriving DecidableEq, Repr

/-- Observable actions of RosSubscriber.send. -/
inductive SubEv
  | socketClose
  | logInfo (msg : Bytes)
  | printNoIp
  | sockConnect
  | sockWrite (b : Bytes)
deriving DecidableEq, Repr

/-- The text built by the two exception handlers of subscriber.py, lines
72 and 95. -/
def excMsg (e : Bytes) : Bytes := asciiOf ("Exception ") ++ e

/-- RosSubscriber.close_connection_if_applicable, subscriber.py lines
110-116: clear connected; close the socket object when one exists (errors
from close are swallowed, and the attribute is not reset to None). -/
def close_connection_if_applicable (st : SubState) : SubState × List SubEv :=
  if st.socketIsSome then ({st with connected := false}, [SubEv.socketClose])
  else ({st with connected := false}, [])

/-- The duplicate-suppressing logging of subscriber.py lines 72-75 and
95-98: log only when the text differs from the most recent one. -/
def dedupLog (st : SubState) (e : Bytes) : SubState × List SubEv :=
  if excMsg e = st.mostRecentExc then (st, [])
  else ({st with mostRecentExc := excMsg e}, [SubEv.logInfo (excMsg e)])

/-- RosSubscriber.create_new_connection, subscriber.py lines 79-100:
bail out (with a once-only print) while no unity IP is known; otherwise
create a socket object and try to connect. A connect failure is logged
with deduplication and reported as false; the fresh socket object is left
in the attribute and never closed. -/
def create_new_connection (env : SubEnv) (st : SubState) :
    Bool × SubState × List SubEv :=
  if env.unityIpEmpty then
    if st.ipErrPrinted then (false, st, [])
    else (false, {st with ipErrPrinted := true}, [SubEv.printNoIp])
  else
    let st1 := {st with socketIsSome := true}
    if env.connectOk then (true, st1, [SubEv.sockConnect])
    else
      let r := dedupLog st1 env.connectErr
      (false, r.1, r.2)

/-- RosSubscriber.send, subscriber.py lines 48-77: return None when rospy
is shut down or no connection can be established; otherwise serialize and
write, turning any write failure into close-and-deduplicated-log; always
return self.msg after the try block. -/
def subSend (env : SubEnv) (st : SubState) (data : Bytes) :
    SubState × Option Nat × List SubEv :=
  if env.rospyShutdown then (st, none, [])
  else
    let conn : SubState × Bool × List SubEv :=
      if st.connected then (st, true, [])
      else
        match create_new_connection env st with
        | (true, st1, evs) => ({st1 with connected := true}, true, evs)
        | (false, st1, evs) => (st1, false, evs)
    match conn with
    | (st1, false, evs) => (st1, none, evs)
    | (st1, true, evs) =>
      if env.sendOk then
        (st1, some st1.msg, evs ++ [SubEv.sockWrite (serialize_message st1.topic data)])
      else
        let c := close_connection_if_applicable st1
        let l := dedupLog c.1 env.sendErr
        (l.1, some l.1.msg, evs ++ c.2 ++ l.2)

/- ===== General lemmas about the stream model ===== -/

theorem flat_nil : flat ([] : List Bytes) = [] := rfl

theorem flat_cons (c : Bytes) (cs : List Bytes) : flat (c :: cs) = c ++ flat cs := by
  simp [flat]

theorem preamble_length : preamble.length = 4 := rfl

theorem flat_eq_nil (s : List Bytes) (h : flat s = []) (hc : ∀ c ∈ s, c ≠ []) :
    s = [] := by
  cases s with
  | nil => rfl
  | cons c cs =>
    rw [flat_cons] at h
    rcases List.append_eq_nil.mp h with ⟨h1, _⟩
    exact absurd h1 (hc c (List.mem_cons_self c cs))

/-- Glue a read prefix back onto a take of the remaining bytes. -/
theorem take_glue (p1 rest : Bytes) (k : Nat) (hk : p1.length ≤ k) :
    p1 ++ rest.take (k - p1.length) = (p1 ++ rest).take k := by
  rw [List.take_append_eq_append_take, List.take_of_length_le hk]

/-- Dropping past a read prefix. -/
theorem drop_glue (p1 rest : Bytes) (k : Nat) (hk : p1.length ≤ k) :
    (p1 ++ rest).drop k = rest.drop (k - p1.length) := by
  rw [List.drop_append_eq_append_drop, List.drop_of_length_le hk, List.nil_append]

theorem recv_append_flat (s : List Bytes) (n : Nat) :
    (recv s n).1 ++ flat (recv s n).2 = flat s := by
  cases s with
  | nil => simp [recv, flat]
  | cons c cs =>
    by_cases h : c.drop n = []
    · have hc : c.take n = c := by
        have := List.take_append_drop n c
        rw [h, List.append_nil] at this
        exact this
      simp [recv, h, hc, flat_cons]
    · simp only [recv, h, if_neg, flat_cons, ite_false]
      rw [← List.append_assoc, List.take_append_drop]

theorem recv_fst_length (s : List Bytes) (n : Nat) : (recv s n).1.length ≤ n := by
  cases s with
  | nil => simp [recv]
  | cons c cs =>
    by_cases h : c.drop n = [] <;> simp [recv, h]

theorem recv_fst_ne (s : List Bytes) (n : Nat) (h1 : s ≠ [])
    (hc : ∀ c ∈ s, c ≠ []) (hn : 1 ≤ n) : (recv s n).1 ≠ [] := by
  cases s with
  | nil => exact absurd rfl h1
  | cons c cs =>
    have hcne : c ≠ [] := hc c (List.mem_cons_self c cs)
    have htne : c.take n ≠ [] := by
      rw [Ne, List.take_eq_nil_iff]
      push_neg
      exact ⟨by omega, hcne⟩
    by_cases h : c.drop n = [] <;> simp [recv, h, htne]

theorem recv_snd_chunks (s : List Bytes) (n : Nat) (hc : ∀ c ∈ s, c ≠ []) :
    ∀ c ∈ (recv s n).2, c ≠ [] := by
  cases s with
  | nil => simp [recv]
  | cons c cs =>
    by_cases h : c.drop n = []
    · simpa [recv, h] using fun x hx => hc x (List.mem_cons_of_mem c hx)
    · intro x hx
      simp only [recv, h, if_neg] at hx
      simp at hx
      rcases hx with hx | hx
      · rw [hx]; exact h
      · exact hc x (List.mem_cons_of_mem c hx)

theorem recv_fst_eq_take (s : List Bytes) (n : Nat) :
    (recv s n).1 = (flat s).take (recv s n).1.length := by
  have h := recv_append_flat s n
  rw [← h, List.take_left]

theorem recvExact_general : ∀ (fuel remaining : Nat) (s : List Bytes) (acc : Bytes),
    (∀ c ∈ s, c ≠ []) → remaining ≤ (flat s).length → remaining < fuel →
    ∃ s', recvExact s remaining acc fuel = (some (acc ++ (flat s).take remaining), s') ∧
      flat s' = (flat s).drop remaining ∧ ∀ c ∈ s', c ≠ [] := by
  intro fuel
  induction fuel with
  | zero => intro remaining s acc _ _ hf; omega
  | succ fuel ih =>
    intro remaining s acc hc hlen hf
    by_cases h0 : remaining = 0
    · refine ⟨s, ?_, ?_, hc⟩
      · simp [recvExact, h0]
      · simp [h0]
    · have hs : s ≠ [] := by
        intro h
        rw [h] at hlen
        simp [flat] at hlen
        omega
      have hne : (recv s remaining).1 ≠ [] :=
        recv_fst_ne s remaining hs hc (by omega)
      have hflat : (recv s remaining).1 ++ flat (recv s remaining).2 = flat s :=
        recv_append_flat s remaining
      have hlen1 : (recv s remaining).1.length ≤ remaining := recv_fst_length s remaining
      have hpos : 1 ≤ (recv s remaining).1.length := by
        cases h : (recv s remaining).1 with
        | nil => exact absurd h hne
        | cons a l => simp [h]
      have hflen2 : (flat (recv s remaining).2).length =
          (flat s).length - (recv s remaining).1.length := by
        have h2 := congrArg List.length hflat
        rw [List.length_append] at h2
        omega
      have hrec := ih (remaining - (recv s remaining).1.length) (recv s remaining).2
        (acc ++ (recv s remaining).1) (recv_snd_chunks s remaining hc)
        (by omega) (by omega)
      rcases hrec with ⟨s', heq, hdrop, hchunks⟩
      refine ⟨s', ?_, ?_, hchunks⟩
      · show recvExact s remaining acc (fuel + 1) = _
        simp only [recvExact, if_neg h0, if_neg hne]
        rw [heq]
        have hbytes : acc ++ (recv s remaining).1 ++
            (flat (recv s remaining).2).take (remaining - (recv s remaining).1.length) =
            acc ++ (flat s).take remaining := by
          rw [List.append_assoc]
          congr 1
          rw [take_glue (recv s remaining).1 (flat (recv s remaining).2) remaining hlen1,
            hflat]
        rw [hbytes]
      · rw [hdrop, ← hflat,
          drop_glue (recv s remaining).1 (flat (recv s remaining).2) remaining hlen1]

theorem recvExact_exact : ∀ (pcs : List Bytes) (rest : List Bytes) (acc : Bytes) (fuel : Nat),
    (∀ c ∈ pcs, c ≠ []) → (flat pcs).length < fuel →
    recvExact (pcs ++ rest) (flat pcs).length acc fuel = (some (acc ++ flat pcs), rest) := by
  intro pcs
  induction pcs with
  | nil =>
    intro rest acc fuel _ hf
    cases fuel with
    | zero => omega
    | succ fuel => simp [recvExact, flat]
  | cons c pcs ih =>
    intro rest acc fuel hc hf
    have hcne : c ≠ [] := hc c (List.mem_cons_self c pcs)
    have hclen : 1 ≤ c.length := by
      cases h : c with
      | nil => exact absurd h hcne
      | cons a l => simp [h]
    rw [flat_cons] at hf ⊢
    simp only [List.length_append] at hf ⊢
    cases fuel with
    | zero => omega
    | succ fuel =>
      have hr : recv ((c :: pcs) ++ rest) (c.length + (flat pcs).length) =
          (c, pcs ++ rest) := by
        have hd : c.drop (c.length + (flat pcs).length) = [] :=
          List.drop_of_length_le (by omega)
        have ht : c.take (c.length + (flat pcs).length) = c :=
          List.take_of_length_le (by omega)
        simp [recv, hd, ht]
      have hne : c ≠ [] := hcne
      simp only [recvExact, if_neg (by omega : ¬(c.length + (flat pcs).length = 0))]
      rw [hr]
      simp only [if_neg hne]
      have harg : c.length + (flat pcs).length - c.length = (flat pcs).length := by omega
      rw [harg]
      have := ih rest (acc ++ c) fuel (fun x hx => hc x (List.mem_cons_of_mem c hx))
        (by omega)
      rw [this, List.append_assoc]

theorem readPayload_general : ∀ (fuel : Nat) (s : List Bytes) (size : Nat) (data : Bytes),
    (∀ c ∈ s, c ≠ []) → size - data.length ≤ (flat s).length →
    size - data.length < fuel →
    ∃ s', readPayload s size data fuel =
        (data ++ (flat s).take (size - data.length), s') ∧
      flat s' = (flat s).drop (size - data.length) ∧ ∀ c ∈ s', c ≠ [] := by
  intro fuel
  induction fuel with
  | zero => intro s size data _ _ hf; omega
  | succ fuel ih =>
    intro s size data hc hlen hf
    by_cases hlt : data.length < size
    · have hs : s ≠ [] := by
        intro h
        rw [h] at hlen
        simp [flat] at hlen
        omega
      have hgrab : (if 1024 < size - data.length then 1024 else size - data.length) ≥ 1 := by
        split <;> omega
      have hgrable : (if 1024 < size - data.length then 1024 else size - data.length) ≤
          size - data.length := by
        split <;> omega
      set grab := if 1024 < size - data.length then 1024 else size - data.length with hgdef
      have hne : (recv s grab).1 ≠ [] := recv_fst_ne s grab hs hc hgrab
      have hflat : (recv s grab).1 ++ flat (recv s grab).2 = flat s :=
        recv_append_flat s grab
      have hlen1 : (recv s grab).1.length ≤ grab := recv_fst_length s grab
      have hpos : 1 ≤ (recv s grab).1.length := by
        cases h : (recv s grab).1 with
        | nil => exact absurd h hne
        | cons a l => simp [h]
      have hflen2 : (flat (recv s grab).2).length =
          (flat s).length - (recv s grab).1.length := by
        have h2 := congrArg List.length hflat
        rw [List.length_append] at h2
        omega
      have hrec := ih (recv s grab).2 size (data ++ (recv s grab).1)
        (recv_snd_chunks s grab hc)
        (by simp only [List.length_append]; omega)
        (by simp only [List.length_append]; omega)
      rcases hrec with ⟨s', heq, hdrop, hchunks⟩
      have harg : size - (data ++ (recv s grab).1).length =
          size - data.length - (recv s grab).1.length := by
        simp only [List.length_append]
        omega
      refine ⟨s', ?_, ?_, hchunks⟩
      · show readPayload s size data (fuel + 1) = _
        simp only [readPayload, if_pos hlt, ← hgdef]
        simp only [if_neg hne]
        rw [heq]
        have hbytes : data ++ (recv s grab).1 ++
            (flat (recv s grab).2).take (size - (data ++ (recv s grab).1).length) =
            data ++ (flat s).take (size - data.length) := by
          rw [harg, List.append_assoc]
          congr 1
          rw [take_glue (recv s grab).1 (flat (recv s grab).2) (size - data.length)
            (by omega), hflat]
        rw [hbytes]
      · rw [hdrop, harg, ← hflat,
          drop_glue (recv s grab).1 (flat (recv s grab).2) (size - data.length)
            (by omega)]
    · have h0 : size - data.length = 0 := by omega
      refine ⟨s, ?_, ?_, hc⟩
      · simp [readPayload, hlt, h0]
      · simp [h0]

/- ===== Field-level helper lemmas ===== -/

theorem pack_length (n : Nat) : (pack_le_uint32 n).length = 4 := rfl

theorem pack_ne_nil (n : Nat) : pack_le_uint32 n ≠ [] := by
  simp [pack_le_uint32]

theorem unpack_pack (n : Nat) (h : n < 2 ^ 32) :
    unpack_le_uint32 (pack_le_uint32 n) = some n := by
  simp only [pack_le_uint32, unpack_le_uint32, Option.some.injEq]
  omega

/-- Reading n bytes from a chunk that holds exactly a ++ b with n the
length of a returns a and pushes b back. -/
theorem recv_exact_chunk (a b : Bytes) (cs : List Bytes) :
    recv ((a ++ b) :: cs) a.length = (a, if b = [] then cs else b :: cs) := by
  have hd : (a ++ b).drop a.length = b := by
    rw [List.drop_append_eq_append_drop, List.drop_length, List.nil_append,
      Nat.sub_self, List.drop_zero]
  have ht : (a ++ b).take a.length = a := List.take_left a b
  by_cases hb : b = [] <;> simp [recv, hd, ht, hb]

theorem read_int32_chunk (n : Nat) (b : Bytes) (cs : List Bytes) (h : n < 2 ^ 32) :
    read_int32 ((pack_le_uint32 n ++ b) :: cs) =
      (some n, if b = [] then cs else b :: cs) := by
  have hr := recv_exact_chunk (pack_le_uint32 n) b cs
  rw [pack_length] at hr
  simp [read_int32, hr, unpack_pack n h]

theorem read_string_chunk (d r : Bytes) (cs : List Bytes)
    (hd : d.length < 2 ^ 32) (hr : r ≠ []) :
    read_string ((pack_le_uint32 d.length ++ (d ++ r)) :: cs) = (some d, r :: cs) := by
  have hdr : d ++ r ≠ [] := by
    intro h
    exact hr (List.append_eq_nil.mp h).2
  have h1 := read_int32_chunk d.length (d ++ r) cs hd
  rw [if_neg hdr] at h1
  have h2 := recv_exact_chunk d r cs
  rw [if_neg hr] at h2
  simp [read_string, h1, h2]

/-- validate_preamble on a single chunk that starts with the preamble. -/
theorem validate_single (b : Bytes) (hb : b ≠ []) :
    validate_preamble [preamble ++ b] = (true, [b]) := by
  have h1 : recv [preamble ++ b] 4 = (preamble, [b]) := by
    have := recv_exact_chunk preamble b []
    rw [preamble_length, if_neg hb] at this
    exact this
  have h2 : recvExact [preamble ++ b] 4 [] 5 = (some preamble, [b]) := by
    simp only [recvExact, if_neg (by omega : ¬(4 = 0))]
    rw [h1]
    simp [recvExact, preamble]
  simp [validate_preamble, preamble_length, h2]

/-- validate_preamble when the preamble arrives chunked, followed by the
rest of the stream: it consumes exactly the preamble chunks. -/
theorem validate_chunked (pcs rest : List Bytes) (hc : ∀ c ∈ pcs, c ≠ [])
    (hf : flat pcs = preamble) :
    validate_preamble (pcs ++ rest) = (true, rest) := by
  have hlen : (flat pcs).length = 4 := by rw [hf, preamble_length]
  have h := recvExact_exact pcs rest [] 5 hc (by omega)
  rw [hlen, hf] at h
  simp [validate_preamble, preamble_length, h]

/-- The general form of validate_preamble over any non-empty-chunk
stream holding at least four bytes. -/
theorem validate_general (s : List Bytes) (hc : ∀ c ∈ s, c ≠ [])
    (hlen : 4 ≤ (flat s).length) :
    ∃ s', validate_preamble s = (decide ((flat s).take 4 = preamble), s') ∧
      flat s' = (flat s).drop 4 ∧ ∀ c ∈ s', c ≠ [] := by
  have h := recvExact_general 5 4 s [] hc hlen (by omega)
  rcases h with ⟨s', heq, hdrop, hchunks⟩
  refine ⟨s', ?_, hdrop, hchunks⟩
  rw [List.nil_append] at heq
  simp [validate_preamble, preamble_length, heq]

/-- The payload loop gathers a whole chunked payload. -/
theorem readPayload_chunked (ics : List Bytes) (p : Bytes)
    (hc : ∀ c ∈ ics, c ≠ []) (hf : flat ics = p) :
    readPayload ics p.length [] (p.length + 1) = (p, []) := by
  have h := readPayload_general (p.length + 1) ics p.length [] hc
    (by rw [hf]; simp) (by simp)
  rcases h with ⟨s', heq, hdrop, hchunks⟩
  rw [List.nil_append, List.length_nil, Nat.sub_zero, hf, List.take_length] at heq
  rw [List.length_nil, Nat.sub_zero, hf, List.drop_length] at hdrop
  rw [heq, flat_eq_nil s' hdrop hchunks]

/-- The payload loop on an already exhausted stream returns no bytes. -/
theorem readPayload_nil (size fuel : Nat) (h : 0 < size) :
    readPayload [] size [] (fuel + 1) = ([], []) := by
  simp [readPayload, recv, h]

theorem serialize_shape (d p : Bytes) : serialize_message d p =
    pack_le_uint32 d.length ++ (d ++ (pack_le_uint32 p.length ++ p)) := by
  simp [serialize_message]

theorem serialize_ne_nil (d p : Bytes) : serialize_message d p ≠ [] := by
  simp [serialize_message, pack_le_uint32]

theorem read_int32_exact (n : Nat) (cs : List Bytes) (h : n < 2 ^ 32) :
    read_int32 (pack_le_uint32 n :: cs) = (some n, cs) := by
  have h1 := read_int32_chunk n [] cs h
  rw [List.append_nil, if_pos rfl] at h1
  exact h1

/-- Decoding a single-chunk outbound frame with the inbound field readers
recovers the destination, the declared size, and the payload. -/
theorem decodeOutbound_serialize (d p : Bytes)
    (hd : d.length < 2 ^ 32) (hp : p.length < 2 ^ 32) :
    decodeOutbound [serialize_message d p] = (some d, some p.length, p) := by
  have hs := read_string_chunk d (pack_le_uint32 p.length ++ p) []
    hd (by simp [pack_le_uint32])
  have hi := read_int32_chunk p.length p [] hp
  by_cases hp0 : p = []
  · subst hp0
    rw [if_pos rfl] at hi
    simp only [decodeOutbound, serialize_shape, hs, hi]
    simp [readPayload]
  · rw [if_neg hp0] at hi
    have hrp := readPayload_chunked [p] p (by simp [hp0]) (by simp [flat])
    simp only [decodeOutbound, serialize_shape, hs, hi, hrp]

/-- Decoding a whole inbound frame delivered in one read. -/
theorem decodeFrame_single (d p : Bytes)
    (hd : d.length < 2 ^ 32) (hp : p.length < 2 ^ 32) :
    decodeFrame [inboundFrame d p] = ⟨true, some d, some p.length, p⟩ := by
  have hv : validate_preamble [inboundFrame d p] = (true, [serialize_message d p]) := by
    have := validate_single (serialize_message d p) (serialize_ne_nil d p)
    simpa [inboundFrame] using this
  have hs := read_string_chunk d (pack_le_uint32 p.length ++ p) []
    hd (by simp [pack_le_uint32])
  have hi := read_int32_chunk p.length p [] hp
  by_cases hp0 : p = []
  · subst hp0
    rw [if_pos rfl] at hi
    simp only [decodeFrame, hv, serialize_shape, hs, hi]
    simp [readPayload]
  · rw [if_neg hp0] at hi
    have hrp := readPayload_chunked [p] p (by simp [hp0]) (by simp [flat])
    simp only [decodeFrame, hv, serialize_shape, hs, hi, hrp]

/-- Decoding an inbound frame whose preamble and payload arrive in
arbitrary non-empty chunks, while the two length prefixes and the
destination arrive inside one middle chunk. -/
theorem decodeFrame_chunked (d p : Bytes) (pcs ics : List Bytes)
    (hd : d.length < 2 ^ 32) (hp : p.length < 2 ^ 32)
    (hpc : ∀ c ∈ pcs, c ≠ []) (hpf : flat pcs = preamble)
    (hic : ∀ c ∈ ics, c ≠ []) (hif : flat ics = p) :
    decodeFrame (pcs ++ (pack_le_uint32 d.length ++ (d ++ pack_le_uint32 p.length)) :: ics)
      = ⟨true, some d, some p.length, p⟩ := by
  have hv := validate_chunked pcs
    ((pack_le_uint32 d.length ++ (d ++ pack_le_uint32 p.length)) :: ics) hpc hpf
  have hs := read_string_chunk d (pack_le_uint32 p.length) ics hd (pack_ne_nil _)
  have hi := read_int32_exact p.length ics hp
  have hrp := readPayload_chunked ics p hic hif
  simp only [decodeFrame, hv, hs, hi, hrp]

/- ===== Lemmas about occursIn and the diagnostic text ===== -/

theorem occursIn_appL (a x l : Bytes) (h : occursIn x l) : occursIn x (a ++ l) := by
  rcases h with ⟨u, v, huv⟩
  exact ⟨a ++ u, v, by rw [huv]; simp [List.append_assoc]⟩

theorem occursIn_appR (b x l : Bytes) (h : occursIn x l) : occursIn x (l ++ b) := by
  rcases h with ⟨u, v, huv⟩
  exact ⟨u, v ++ b, by rw [huv]; simp [List.append_assoc]⟩

theorem occursIn_quoted (k : Bytes) : occursIn k (quoted k) :=
  ⟨[39], [39], by simp [quoted]⟩

theorem occursIn_joinComma : ∀ (ks : List Bytes) (k : Bytes), k ∈ ks →
    occursIn k (joinComma (ks.map quoted)) := by
  intro ks
  induction ks with
  | nil => intro k h; cases h
  | cons b rest ih =>
    intro k h
    rcases List.mem_cons.mp h with h | h
    · subst h
      cases rest with
      | nil => exact occursIn_quoted k
      | cons m ms =>
        have : joinComma ((k :: m :: ms).map quoted) =
            quoted k ++ [44, 32] ++ joinComma ((m :: ms).map quoted) := rfl
        rw [this, List.append_assoc]
        exact occursIn_appR _ _ _ (occursIn_quoted k)
    · have hk := ih k h
      cases rest with
      | nil => cases h
      | cons m ms =>
        have : joinComma ((b :: m :: ms).map quoted) =
            quoted b ++ [44, 32] ++ joinComma ((m :: ms).map quoted) := rfl
        rw [this, List.append_assoc]
        exact occursIn_appL _ _ _ (occursIn_appL _ _ _ hk)

/-- The unknown-destination diagnostic contains the requested name. -/
theorem unknownDestMsg_has_dest (d : Bytes) (ks : List Bytes) :
    occursIn d (unknownDestMsg (some d) ks) := by
  show occursIn d (asciiOf ("Topic/service destination ") ++ quoted d ++
    asciiOf (" is not defined! Known topics are: ") ++ keysRepr ks ++ [32])
  apply occursIn_appR
  apply occursIn_appR
  apply occursIn_appR
  exact occursIn_appL _ _ _ (occursIn_quoted d)

/-- The unknown-destination diagnostic contains every known name. -/
theorem unknownDestMsg_has_key (dst : Option Bytes) (ks : List Bytes) (k : Bytes)
    (h : k ∈ ks) : occursIn k (unknownDestMsg dst ks) := by
  show occursIn k (asciiOf ("Topic/service destination ") ++ quoted (destRepr dst) ++
    asciiOf (" is not defined! Known topics are: ") ++
    (asciiOf ("dict_keys([") ++ joinComma (ks.map quoted) ++ asciiOf ("])")) ++ [32])
  apply occursIn_appR
  apply occursIn_appL
  apply occursIn_appR
  apply occursIn_appL
  exact occursIn_joinComma ks k h

/- ===== Claims ===== -/

/-- C1, counterexample. The claim asserts chunked-read equivalence for
every partition into non-empty chunks, with the length prefixes and the
destination accumulated across repeated reads. The code reads each length
prefix and the destination with a single recv call (client.py lines 80 and
100), so delivering the frame with destination ab and payload 01 one byte
per read decodes to no destination and no size, while the one-read
delivery decodes fully. -/
theorem c1_counterexample :
    decodeFrame (split1 (inboundFrame [97, 98] [1])) =
      ⟨true, none, none, []⟩ ∧
    decodeFrame [inboundFrame [97, 98] [1]] =
      ⟨true, some [97, 98], some 1, [1]⟩ := by
  constructor <;> decide

/-- C1, amended. Chunked-read equivalence holds for the preamble and the
payload body, which the code does accumulate across arbitrary non-empty
reads; the destination-length prefix, the destination string and the
payload-length prefix must each be delivered within a single read (here:
inside one middle chunk), because read_int32 and read_string issue a
single recv for them. -/
theorem c1_chunked_read_amended (d p : Bytes) (pcs ics : List Bytes)
    (hd : d.length < 2 ^ 32) (hp : p.length < 2 ^ 32)
    (hpc : ∀ c ∈ pcs, c ≠ []) (hpf : flat pcs = preamble)
    (hic : ∀ c ∈ ics, c ≠ []) (hif : flat ics = p) :
    decodeFrame (pcs ++ (pack_le_uint32 d.length ++ (d ++ pack_le_uint32 p.length)) :: ics)
        = decodeFrame [inboundFrame d p] ∧
    decodeFrame [inboundFrame d p] = ⟨true, some d, some p.length, p⟩ := by
  have h1 := decodeFrame_chunked d p pcs ics hd hp hpc hpf hic hif
  have h2 := decodeFrame_single d p hd hp
  exact ⟨h1.trans h2.symm, h2⟩

/-- C1 witness: preamble split into three reads, payload of three bytes
split into two reads, destination ab. -/
theorem c1_chunked_read_amended_witness :
    decodeFrame ([[0xfe], [0xed, 0xf0], [0x0d]] ++
        (pack_le_uint32 2 ++ ([97, 98] ++ pack_le_uint32 3)) :: [[1], [2, 3]])
        = decodeFrame [inboundFrame [97, 98] [1, 2, 3]] ∧
    decodeFrame [inboundFrame [97, 98] [1, 2, 3]] =
      ⟨true, some [97, 98], some 3, [1, 2, 3]⟩ :=
  c1_chunked_read_amended [97, 98] [1, 2, 3] [[0xfe], [0xed, 0xf0], [0x0d]]
    [[1], [2, 3]] (by decide) (by decide) (by decide) (by decide) (by decide)
    (by decide)

/-- C4: encoding any destination and payload with serialize_message and
decoding with the inbound field readers (preamble stage skipped) yields
the identical destination bytes and payload bytes. Destination strings
are represented by their UTF-8 bytes, on which the encode and decode
codec calls of the source are mutually inverse, so recovering the bytes
recovers the string. The length bounds mirror the frame invariant of the
wire format (struct.pack raises beyond them). -/
theorem c4_round_trip (d p : Bytes)
    (hd : d.length < 2 ^ 32) (hp : p.length < 2 ^ 32) :
    decodeOutbound [serialize_message d p] = (some d, some p.length, p) :=
  decodeOutbound_serialize d p hd hp

/-- C4 witness at a concrete destination and payload. -/
theorem c4_round_trip_witness :
    decodeOutbound [serialize_message [97] [1, 2]] = (some [97], some 2, [1, 2]) :=
  c4_round_trip [97] [1, 2] (by decide) (by decide)

/-- C5: a connection whose first four bytes differ from the preamble is
shut down with only those four bytes consumed: the remaining stream still
holds everything after byte four, the only event is the close, and the
whole connection run never invokes an endpoint, for any registry. -/
theorem c5_preamble_rejection (env : Env) (s : List Bytes) (fuel : Nat)
    (hc : ∀ c ∈ s, c ≠ []) (hlen : 4 ≤ (flat s).length)
    (hbad : (flat s).take 4 ≠ preamble) :
    ∃ s', runStep env s = ⟨[Ev.close], Status.ret, s'⟩ ∧
      flat s' = (flat s).drop 4 ∧
      runClient env (fuel + 1) s = ([Ev.close], none) := by
  rcases validate_general s hc hlen with ⟨s', heq, hdrop, _⟩
  rw [decide_eq_false hbad] at heq
  have hstep : runStep env s = ⟨[Ev.close], Status.ret, s'⟩ := by
    simp only [runStep, heq]
  refine ⟨s', hstep, hdrop, ?_⟩
  simp only [runClient, hstep]

/-- C5 witness: four zero bytes followed by more data. -/
theorem c5_preamble_rejection_witness :
    ∃ s', runStep ⟨[], fun _ => [], fun _ => true⟩ [[0, 0, 0, 0, 7]] =
        ⟨[Ev.close], Status.ret, s'⟩ ∧
      flat s' = (flat [[0, 0, 0, 0, 7]]).drop 4 ∧
      runClient ⟨[], fun _ => [], fun _ => true⟩ 3 [[0, 0, 0, 0, 7]] =
        ([Ev.close], none) :=
  c5_preamble_rejection ⟨[], fun _ => [], fun _ => true⟩ [[0, 0, 0, 0, 7]] 2
    (by decide) (by decide) (by decide)

/-- C2, counterexample. The claim asserts that a zero-byte payload read
abandons the message with no dispatch. With declared payload length 2,
one delivered payload byte and then end of stream, the payload loop
breaks, the non-empty truncated data passes the bailout check (client.py
line 180 only tests emptiness), and the endpoint is invoked with the
one-byte payload while the loop falls through with no shutdown. -/
theorem c2_counterexample :
    runStep ⟨[([97], fun _ => EpResult.ok none)], fun _ => [], fun _ => true⟩
        [preamble ++ (pack_le_uint32 1 ++ ([97] ++ pack_le_uint32 2)), [5]] =
      ⟨[Ev.epSend [97] [5]], Status.next, []⟩ := by
  decide

/-- C2, amended. When a payload read returns zero bytes before ANY
payload byte has arrived, the handler does abandon the message and shut
the connection down without dispatching: the only event is the close and
the connection run ends. (When some payload bytes have arrived, the
truncated payload is dispatched instead, as the counterexample shows.) -/
theorem c2_zero_read_amended (env : Env) (d : Bytes) (size fuel : Nat)
    (hd : d.length < 2 ^ 32) (hsz : size < 2 ^ 32) (h0 : 0 < size) :
    runStep env [preamble ++ (pack_le_uint32 d.length ++ (d ++ pack_le_uint32 size))] =
      ⟨[Ev.close], Status.ret, []⟩ ∧
    runClient env (fuel + 1)
        [preamble ++ (pack_le_uint32 d.length ++ (d ++ pack_le_uint32 size))] =
      ([Ev.close], none) := by
  have hv := validate_single (pack_le_uint32 d.length ++ (d ++ pack_le_uint32 size))
    (by simp [pack_le_uint32])
  have hs := read_string_chunk d (pack_le_uint32 size) [] hd (pack_ne_nil size)
  have hi := read_int32_exact size [] hsz
  have hrp := readPayload_nil size size h0
  have hstep : runStep env
      [preamble ++ (pack_le_uint32 d.length ++ (d ++ pack_le_uint32 size))] =
      ⟨[Ev.close], Status.ret, []⟩ := by
    simp only [runStep, hv, hs, hi, hrp, if_pos rfl, ite_true]
  exact ⟨hstep, by simp only [runClient, hstep]⟩

/-- C2 witness: destination a, declared size 2, stream ending right after
the header. -/
theorem c2_zero_read_amended_witness :
    runStep ⟨[], fun _ => [], fun _ => true⟩
        [preamble ++ (pack_le_uint32 1 ++ ([97] ++ pack_le_uint32 2))] =
      ⟨[Ev.close], Status.ret, []⟩ ∧
    runClient ⟨[], fun _ => [], fun _ => true⟩ 4
        [preamble ++ (pack_le_uint32 1 ++ ([97] ++ pack_le_uint32 2))] =
      ([Ev.close], none) :=
  c2_zero_read_amended ⟨[], fun _ => [], fun _ => true⟩ [97] 2 3
    (by decide) (by decide) (by decide)

/-- C3, counterexample. The claim asserts the unknown-destination failure
is not propagated as a raised exception, but client.py line 200 raises
TopicOrServiceNameDoesNotExistError out of run after closing and
reporting: at destination c against a registry holding only a, the step
ends with a propagating exception. -/
theorem c3_counterexample :
    (runStep ⟨[([97], fun _ => EpResult.ok none)], fun _ => [], fun _ => true⟩
        [inboundFrame [99] [1]]).status =
      Status.raised PyErr.topicDoesNotExist := by
  decide

/-- C3, amended. For a frame with a NON-EMPTY payload whose destination
is not registered, the handler closes the connection, reports to the
error sink a message containing the requested name and every known name,
and then RAISES the error out of the handler (rather than swallowing it
as the claim stated). For a frame with an EMPTY payload the empty-data
bailout of client.py line 180 closes the connection before routing, so no
report and no raise occur at all. -/
theorem c3_unknown_destination_amended (env : Env) (d p : Bytes)
    (hd : d.length < 2 ^ 32) (hp : p.length < 2 ^ 32)
    (hsys : d ≠ sysName) (hhs : d ≠ hsName)
    (hlook : lookup env.registry d = none) :
    (p ≠ [] →
      runStep env [inboundFrame d p] =
        ⟨[Ev.close, Ev.unityError (unknownDestMsg (some d) (keys env.registry))],
         Status.raised PyErr.topicDoesNotExist, []⟩ ∧
      occursIn d (unknownDestMsg (some d) (keys env.registry)) ∧
      ∀ k ∈ keys env.registry,
        occursIn k (unknownDestMsg (some d) (keys env.registry))) ∧
    (p = [] →
      runStep env [inboundFrame d p] = ⟨[Ev.close], Status.ret, []⟩) := by
  have hv : validate_preamble [inboundFrame d p] = (true, [serialize_message d p]) := by
    simpa [inboundFrame] using validate_single (serialize_message d p) (serialize_ne_nil d p)
  have hs : read_string [serialize_message d p] =
      (some d, [pack_le_uint32 p.length ++ p]) := by
    rw [serialize_shape]
    exact read_string_chunk d (pack_le_uint32 p.length ++ p) [] hd
      (by simp [pack_le_uint32])
  constructor
  · intro hp0
    have hi : read_int32 [pack_le_uint32 p.length ++ p] = (some p.length, [p]) := by
      have h := read_int32_chunk p.length p [] hp
      rwa [if_neg hp0] at h
    have hrp := readPayload_chunked [p] p (by simp [hp0]) (by simp [flat])
    refine ⟨?_, unknownDestMsg_has_dest d (keys env.registry),
      fun k hk => unknownDestMsg_has_key (some d) (keys env.registry) k hk⟩
    simp only [runStep, hv, hs, hi, hrp, if_neg hp0, Option.some.injEq,
      if_neg hsys, if_neg hhs, hlook]
  · intro hp0
    subst hp0
    have hi : read_int32 [pack_le_uint32 0 ++ []] = (some 0, []) := by
      have h := read_int32_chunk 0 [] [] (by norm_num)
      rwa [if_pos rfl] at h
    have hrp : readPayload [] 0 [] (0 + 1) = ([], []) := by
      simp [readPayload]
    simp only [runStep, hv, hs, List.length_nil, hi, hrp, if_pos rfl, ite_true]

/-- C3 witness at destination c against a registry holding only a: the
non-empty-payload half with a one-byte payload, and the empty-payload
half. -/
theorem c3_unknown_destination_amended_witness :
    (runStep ⟨[([97], fun _ => EpResult.ok none)], fun _ => [], fun _ => true⟩
        [inboundFrame [99] [1]] =
      ⟨[Ev.close, Ev.unityError (unknownDestMsg (some [99]) [[97]])],
       Status.raised PyErr.topicDoesNotExist, []⟩ ∧
    occursIn [99] (unknownDestMsg (some [99]) [[97]]) ∧
    ∀ k ∈ ([[97]] : List Bytes), occursIn k (unknownDestMsg (some [99]) [[97]])) ∧
    runStep ⟨[([97], fun _ => EpResult.ok none)], fun _ => [], fun _ => true⟩
        [inboundFrame [99] []] = ⟨[Ev.close], Status.ret, []⟩ :=
  ⟨(c3_unknown_destination_amended
      ⟨[([97], fun _ => EpResult.ok none)], fun _ => [], fun _ => true⟩ [99] [1]
      (by decide) (by decide) (by decide) (by decide) rfl).1 (by decide),
    (c3_unknown_destination_amended
      ⟨[([97], fun _ => EpResult.ok none)], fun _ => [], fun _ => true⟩ [99] []
      (by decide) (by decide) (by decide) (by decide) rfl).2 rfl⟩

/-- C6: whatever exception the endpoint dispatch raises, and whatever
exception writing the reply raises, the handler catches it, closes the
connection, writes no reply and ends the iteration with a plain return:
nothing propagates and nothing is retried (client.py lines 204-214). -/
theorem c6_dispatch_exception (env : Env) (d p : Bytes) (ep : Bytes → EpResult)
    (hd : d.length < 2 ^ 32) (hp : p.length < 2 ^ 32) (hp0 : p ≠ [])
    (hsys : d ≠ sysName) (hhs : d ≠ hsName)
    (hlook : lookup env.registry d = some ep) :
    (ep p = EpResult.err →
      runStep env [inboundFrame d p] = ⟨[Ev.epSend d p, Ev.close], Status.ret, []⟩) ∧
    (∀ r, ep p = EpResult.ok (some r) →
      env.connSendOk (serialize_message d r) = false →
      runStep env [inboundFrame d p] = ⟨[Ev.epSend d p, Ev.close], Status.ret, []⟩) := by
  have hv : validate_preamble [inboundFrame d p] = (true, [serialize_message d p]) := by
    simpa [inboundFrame] using validate_single (serialize_message d p) (serialize_ne_nil d p)
  have hs : read_string [serialize_message d p] =
      (some d, [pack_le_uint32 p.length ++ p]) := by
    rw [serialize_shape]
    exact read_string_chunk d (pack_le_uint32 p.length ++ p) [] hd
      (by simp [pack_le_uint32])
  have hi : read_int32 [pack_le_uint32 p.length ++ p] = (some p.length, [p]) := by
    have h := read_int32_chunk p.length p [] hp
    rwa [if_neg hp0] at h
  have hrp := readPayload_chunked [p] p (by simp [hp0]) (by simp [flat])
  constructor
  · intro herr
    simp only [runStep, hv, hs, hi, hrp, if_neg hp0, Option.some.injEq,
      if_neg hsys, if_neg hhs, hlook, herr]
  · intro r hok hfail
    simp only [runStep, hv, hs, hi, hrp, if_neg hp0, Option.some.injEq,
      if_neg hsys, if_neg hhs, hlook, hok, hfail]
    simp

/-- C6 witness: an endpoint for a that raises. -/
theorem c6_dispatch_exception_witness :
    runStep ⟨[([97], fun _ => EpResult.err)], fun _ => [], fun _ => true⟩
        [inboundFrame [97] [1]] =
      ⟨[Ev.epSend [97] [1], Ev.close], Status.ret, []⟩ :=
  (c6_dispatch_exception ⟨[([97], fun _ => EpResult.err)], fun _ => [], fun _ => true⟩
    [97] [1] (fun _ => EpResult.err) (by decide) (by decide) (by decide)
    (by decide) (by decide) rfl).1 rfl

/-- C8, counterexample. The claim asserts every frame addressed to the
handshake destination gets its response written back. A handshake frame
with an empty payload never reaches the handshake branch: the empty-data
bailout at client.py line 180 closes the connection first, so no response
is written (the connection is still closed and no second frame is read). -/
theorem c8_counterexample :
    runStep ⟨[], fun _ => [7], fun _ => true⟩ [inboundFrame hsName []] =
      ⟨[Ev.close], Status.ret, []⟩ := by
  decide

/-- C8, amended. For a handshake frame with a NON-EMPTY payload whose
response write succeeds, the response is serialized in the outbound
format, written back on the same connection, and the connection is closed;
the run ends there, so a second frame is never read. A frame with empty
payload closes the connection without any response. -/
theorem c8_handshake_single_shot_amended (env : Env) (p : Bytes) (fuel : Nat)
    (hp : p.length < 2 ^ 32) (hp0 : p ≠ [])
    (hok : env.connSendOk (serialize_message hsName (env.handshake p)) = true) :
    runStep env [inboundFrame hsName p] =
      ⟨[Ev.handshakeCall p, Ev.write (serialize_message hsName (env.handshake p)),
        Ev.close], Status.ret, []⟩ ∧
    runClient env (fuel + 1) [inboundFrame hsName p] =
      ([Ev.handshakeCall p, Ev.write (serialize_message hsName (env.handshake p)),
        Ev.close], none) := by
  have hv : validate_preamble [inboundFrame hsName p] =
      (true, [serialize_message hsName p]) := by
    simpa [inboundFrame] using validate_single (serialize_message hsName p)
      (serialize_ne_nil hsName p)
  have hs : read_string [serialize_message hsName p] =
      (some hsName, [pack_le_uint32 p.length ++ p]) := by
    rw [serialize_shape]
    exact read_string_chunk hsName (pack_le_uint32 p.length ++ p) [] (by decide)
      (by simp [pack_le_uint32])
  have hi : read_int32 [pack_le_uint32 p.length ++ p] = (some p.length, [p]) := by
    have h := read_int32_chunk p.length p [] hp
    rwa [if_neg hp0] at h
  have hrp := readPayload_chunked [p] p (by simp [hp0]) (by simp [flat])
  have hns : hsName ≠ sysName := by decide
  have hstep : runStep env [inboundFrame hsName p] =
      ⟨[Ev.handshakeCall p, Ev.write (serialize_message hsName (env.handshake p)),
        Ev.close], Status.ret, []⟩ := by
    simp only [runStep, hv, hs, hi, hrp, if_neg hp0, Option.some.injEq,
      if_neg hns, if_pos rfl, hok, if_true]
  exact ⟨hstep, by simp only [runClient, hstep]⟩

/-- C8 witness: handshake payload of one byte, write succeeding. -/
theorem c8_handshake_single_shot_amended_witness :
    runStep ⟨[], fun _ => [7], fun _ => true⟩ [inboundFrame hsName [9]] =
      ⟨[Ev.handshakeCall [9],
        Ev.write (serialize_message hsName [7]), Ev.close], Status.ret, []⟩ ∧
    runClient ⟨[], fun _ => [7], fun _ => true⟩ 2 [inboundFrame hsName [9]] =
      ([Ev.handshakeCall [9],
        Ev.write (serialize_message hsName [7]), Ev.close], none) :=
  c8_handshake_single_shot_amended ⟨[], fun _ => [7], fun _ => true⟩ [9] 1
    (by decide) (by decide) rfl

/-- C7, counterexample. The claim asserts that a failure while connecting
closes the channel's socket. On a connect failure (subscriber.py lines
88-98) the freshly created socket object is stored in the attribute and
never closed: the call produces only the deduplicated log entry, no
socketClose, and leaves the socket object present and unclosed. -/
theorem c7_counterexample :
    subSend ⟨false, false, false, true, [120], [121]⟩
        ⟨[116], 3, false, false, [], false⟩ [5] =
      (⟨[116], 3, false, true, excMsg [120], false⟩, none,
        [SubEv.logInfo (excMsg [120])]) := by
  decide

/-- C7, amended. A failure while WRITING closes the socket, clears the
connected state, logs with duplicate suppression and does not retry; a
failure while CONNECTING leaves the fresh socket object unclosed (only
logs, deduplicated) while the connected state stays false. In both cases
the call performs no retry and the next send attempts reconnection
because connected is false afterwards. -/
theorem c7_send_failure_amended (env : SubEnv) (st : SubState) (data : Bytes)
    (h1 : env.rospyShutdown = false) :
    (st.connected = true → env.sendOk = false → st.socketIsSome = true →
      (subSend env st data).1.connected = false ∧
      (subSend env st data).2.1 = some st.msg ∧
      (subSend env st data).2.2 = SubEv.socketClose ::
        (if excMsg env.sendErr = st.mostRecentExc then []
         else [SubEv.logInfo (excMsg env.sendErr)])) ∧
    (st.connected = false → env.unityIpEmpty = false → env.connectOk = false →
      (subSend env st data).1.connected = false ∧
      (subSend env st data).1.socketIsSome = true ∧
      (subSend env st data).2.1 = none ∧
      (subSend env st data).2.2 =
        (if excMsg env.connectErr = st.mostRecentExc then []
         else [SubEv.logInfo (excMsg env.connectErr)])) := by
  constructor
  · intro h2 h3 h4
    by_cases hdup : excMsg env.sendErr = st.mostRecentExc <;>
      simp [subSend, close_connection_if_applicable, dedupLog, h1, h2, h3, h4, hdup]
  · intro h2 h5 h6
    by_cases hdup : excMsg env.connectErr = st.mostRecentExc <;>
      simp [subSend, create_new_connection, dedupLog, h1, h2, h5, h6, hdup]

/-- C7 witness: a write failure on a connected channel with a fresh error
text. -/
theorem c7_send_failure_amended_witness :
    (subSend ⟨false, false, true, false, [120], [121]⟩
        ⟨[116], 3, true, true, [], false⟩ [5]).1.connected = false ∧
    (subSend ⟨false, false, true, false, [120], [121]⟩
        ⟨[116], 3, true, true, [], false⟩ [5]).2.1 = some 3 ∧
    (subSend ⟨false, false, true, false, [120], [121]⟩
        ⟨[116], 3, true, true, [], false⟩ [5]).2.2 =
      SubEv.socketClose :: [SubEv.logInfo (excMsg [121])] :=
  (c7_send_failure_amended ⟨false, false, true, false, [120], [121]⟩
    ⟨[116], 3, true, true, [], false⟩ [5] rfl).1 rfl rfl rfl

/-- C9: while rospy is not shut down, send returns None exactly when no
connection exists and none can be established (empty unity IP or failed
connect), and otherwise returns self.msg even when the socket write
raises; the model is a total function, mirroring that every exception in
the send path is caught inside send and nothing propagates to the bus
callback. -/
theorem c9_subscriber_send_return (env : SubEnv) (st : SubState) (data : Bytes)
    (h1 : env.rospyShutdown = false) :
    (st.connected = false → env.unityIpEmpty = true ∨ env.connectOk = false →
      (subSend env st data).2.1 = none) ∧
    (st.connected = true ∨ (env.unityIpEmpty = false ∧ env.connectOk = true) →
      (subSend env st data).2.1 = some st.msg) := by
  constructor
  · intro h2 h3
    rcases h3 with h3 | h3
    · by_cases hpr : st.ipErrPrinted <;>
        simp [subSend, create_new_connection, h1, h2, h3, hpr]
    · by_cases hip : env.unityIpEmpty
      · by_cases hpr : st.ipErrPrinted <;>
          simp [subSend, create_new_connection, h1, h2, hip, hpr]
      · by_cases hdup : excMsg env.connectErr = st.mostRecentExc <;>
          simp [subSend, create_new_connection, dedupLog, h1, h2, h3, hip, hdup]
  · intro h3
    rcases h3 with h3 | ⟨h4, h5⟩
    · by_cases hsnd : env.sendOk
      · simp [subSend, h1, h3, hsnd]
      · by_cases hsock : st.socketIsSome <;>
          by_cases hdup : excMsg env.sendErr = st.mostRecentExc <;>
            simp [subSend, close_connection_if_applicable, dedupLog, h1, h3,
              hsnd, hsock, hdup]
    · by_cases h3 : st.connected
      · by_cases hsnd : env.sendOk
        · simp [subSend, h1, h3, hsnd]
        · by_cases hsock : st.socketIsSome <;>
            by_cases hdup : excMsg env.sendErr = st.mostRecentExc <;>
              simp [subSend, close_connection_if_applicable, dedupLog, h1, h3,
                hsnd, hsock, hdup]
      · by_cases hsnd : env.sendOk
        · simp [subSend, create_new_connection, h1, h3, h4, h5, hsnd]
        · by_cases hdup : excMsg env.sendErr = st.mostRecentExc <;>
            simp [subSend, create_new_connection, close_connection_if_applicable,
              dedupLog, h1, h3, h4, h5, hsnd, hdup]

/-- C9 witness: a connect failure returning None, and a write failure
still returning the message class. -/
theorem c9_subscriber_send_return_witness :
    (subSend ⟨false, true, true, true, [], []⟩
        ⟨[116], 3, false, false, [], false⟩ [5]).2.1 = none ∧
    (subSend ⟨false, false, true, false, [], [121]⟩
        ⟨[116], 3, true, true, [], false⟩ [5]).2.1 = some 3 :=
  ⟨(c9_subscriber_send_return ⟨false, true, true, true, [], []⟩
      ⟨[116], 3, false, false, [], false⟩ [5] rfl).1 rfl (Or.inl rfl),
    (c9_subscriber_send_return ⟨false, false, true, false, [], [121]⟩
      ⟨[116], 3, true, true, [], false⟩ [5] rfl).2 (Or.inl rfl)⟩

/-- Helper: once the running flag is cleared, further shutdown calls are
the identity. -/
theorem shutdown_iterate_stopped (n : Nat) (st : ClientState)
    (h : st.client_running = false) : shutdown_client^[n] st = st := by
  induction n with
  | zero => rfl
  | succ n ih =>
    rw [Function.iterate_succ_apply]
    have hst : shutdown_client st = st := by simp [shutdown_client, h]
    rw [hst, ih]

/-- C10: shutdown_client is idempotent. The first call on a running
client clears client_running and closes the connection once; any call on
a stopped client is the identity, so over any number of calls starting
from the initial state conn.close runs at most once. -/
theorem c10_shutdown_idempotent :
    (∀ st : ClientState, st.client_running = true →
      shutdown_client st = ⟨false, st.closeCount + 1⟩) ∧
    (∀ st : ClientState, st.client_running = false → shutdown_client st = st) ∧
    (∀ n : Nat, (shutdown_client^[n] ⟨true, 0⟩).closeCount ≤ 1) := by
  refine ⟨fun st h => by simp [shutdown_client, h], fun st h => by simp [shutdown_client, h], ?_⟩
  intro n
  cases n with
  | zero => simp
  | succ n =>
    rw [Function.iterate_succ_apply]
    have h1 : shutdown_client ⟨true, 0⟩ = ⟨false, 1⟩ := rfl
    rw [h1, shutdown_iterate_stopped n ⟨false, 1⟩ rfl]

/-- C10 witness at concrete states and three iterated calls. -/
theorem c10_shutdown_idempotent_witness :
    shutdown_client ⟨true, 5⟩ = ⟨false, 6⟩ ∧
    shutdown_client ⟨false, 2⟩ = ⟨false, 2⟩ ∧
    (shutdown_client^[3] ⟨true, 0⟩).closeCount ≤ 1 :=
  ⟨c10_shutdown_idempotent.1 ⟨true, 5⟩ rfl,
    c10_shutdown_idempotent.2.1 ⟨false, 2⟩ rfl,
    c10_shutdown_idempotent.2.2 3⟩

end RosTcpEndpoint
